import Mathlib

/-!
# Scene Explorer drag-drop: shallow embedding

This file embeds the drag-and-drop logic of the Babylon.js inspector-v2
Scene Explorer and proves the specification claims about it.

Embedded sources:
* `sceneExplorerDragDrop.ts` (config-object variant of the hook):
  `calculateDropPosition`, `onDragStart`, `onDragMove`, `onDragEnd`,
  `resetState`.
* the provider-based variant of the same hook (`DragDropProvider`,
  `DropEvaluation`, `DropVisual`, its `onDragStart` / `onDragMove` /
  `onDragEnd` / `resetState`), embedded here with a `prov` name part to
  keep names distinct.
* `reorderDragProvider.ts`: `createReorderDragProvider`'s `evaluateDrop`
  and `onDrop` (the sibling-splice logic), `updateRootNodeIndices`, and
  `createReparentDragProvider`'s `evaluateDrop`.

Modelling conventions:
* Entities are an abstract type `α` with decidable equality (the code
  compares entities with `===`).
* Pixel coordinates are rationals (`ℚ`); the zone arithmetic uses the
  literal thresholds of the code as exact rationals.
* Callbacks supplied through optional fields are `Option` of Lean
  functions; `f?.(x) ?? true` becomes `(f.map (fun g => g x)).getD true`.
* Effectful callbacks (`performDrop`, the provider `onDrop` mutation) are
  not executed by the coordinator model; instead each drag-end outcome
  records the arguments the code would pass to them, and the reorder
  provider's mutation is modelled separately as a pure function on the
  sibling list.
* The React `useState` values and the `dropStateRef` record are kept in
  lockstep by the code (every write updates both), so the model keeps a
  single copy of each field.
-/

/-- `DropPosition` from sceneExplorerDragDrop.ts: `"before" | "inside" | "after"`. -/
inductive DropPosition
  | before
  | inside
  | after
  deriving DecidableEq, Repr

/-- The fields of a `DOMRect` that the embedded code reads. -/
structure Rect where
  top : ℚ
  height : ℚ
  deriving DecidableEq, Repr

/-- `calculateDropPosition` from sceneExplorerDragDrop.ts:
"before" (top 25%), "inside" (middle 60%), "after" (bottom 15%). -/
def calculateDropPosition (clientY : ℚ) (overRect : Rect) : DropPosition :=
  let relativeY := clientY - overRect.top
  let height := overRect.height
  if relativeY < height * (25 / 100) then
    .before
  else if relativeY > height * (85 / 100) then
    .after
  else
    .inside

/-- `DragDropConfig<T>` from sceneExplorerDragDrop.ts.  `performDrop` is a
mutation callback; the model only needs whether it is present, since the
coordinator model reports the arguments of the call instead of running it. -/
structure DragDropConfig (α : Type) where
  canDrag : Option (α → Bool)
  canDrop : Option (α → α → DropPosition → Bool)
  hasPerformDrop : Bool

/-- An entry of a tree item's `children` array (shape of `DragDropTreeItem`:
an item of type `"entity"` always carries its entity). -/
structure TreeChild (α : Type) where
  type : String
  entity : α
  dragDropConfig : Option (DragDropConfig α)

/-- A value of the `allTreeItems` map (`DragDropTreeItemData`).  An absent
`children` array and an empty one behave identically in the code (the guard
is the truthiness of `children?.length`), so `children` is a plain list. -/
structure TreeItemData (α : Type) where
  type : String
  children : List (TreeChild α)
  dragDropConfig : Option (DragDropConfig α)

/-- `DropResult` from sceneExplorerDragDrop.ts. -/
structure DropResult (α : Type) where
  draggedEntity : α
  targetEntity : α
  dropPosition : DropPosition
  deriving DecidableEq, Repr

/-- The session state of the config-object hook: the `useState` values plus
`dropStateRef` (kept in lockstep by the code, so stored once). -/
structure ConfigState (α : Type) where
  draggedEntity : Option α
  currentDropPosition : Option DropPosition
  currentDropTarget : Option α
  lastDropResult : Option (DropResult α)
  deriving DecidableEq, Repr

/-- The initial session state of the config-object hook. -/
def initialConfigState (α : Type) : ConfigState α :=
  { draggedEntity := none, currentDropPosition := none, currentDropTarget := none,
    lastDropResult := none }

/-- `resetState` from sceneExplorerDragDrop.ts: clears the dragged entity and
the hover sub-state; `lastDropResult` is not touched by it. -/
def resetState (s : ConfigState α) : ConfigState α :=
  { s with draggedEntity := none, currentDropPosition := none, currentDropTarget := none }

/-- The hover-clearing writes repeated in `onDragMove`
(`setCurrentDropPosition(null)` / `setCurrentDropTarget(null)` plus the
matching `dropStateRef` writes). -/
def clearHover (s : ConfigState α) : ConfigState α :=
  { s with currentDropPosition := none, currentDropTarget := none }

/-- `onDragStart` of the config-object hook: requires an entity on the active
data, clears the previous drop result, then checks the section-level and
service-level `canDrag` (each defaulting to true when unset). -/
def onDragStart (canDragCallback : Option (α → Bool))
    (entity : Option α) (dragDropConfig : Option (DragDropConfig α))
    (s : ConfigState α) : ConfigState α :=
  match entity with
  | none => s
  | some e =>
    let s := { s with lastDropResult := none }
    let sectionCanDrag := ((dragDropConfig.bind (·.canDrag)).map (fun f => f e)).getD true
    let serviceCanDrag := (canDragCallback.map (fun f => f e)).getD true
    if sectionCanDrag && serviceCanDrag then
      { s with draggedEntity := some e }
    else
      s

/-- The activator event of a drag-move: either it has a `clientY` field, or it
only carries a `touches` list (each touch reduced to its `clientY`). -/
inductive ActivatorEvent
  | withClientY (clientY : ℚ)
  | touchList (touches : List ℚ)
  deriving DecidableEq, Repr

/-- The coordinate-extraction branch of `onDragMove`: use `clientY` when the
event has one, else the first touch's `clientY` when the touch list is
non-empty, else no coordinate. -/
def extractClientY : ActivatorEvent → Option ℚ
  | .withClientY y => some y
  | .touchList ts => ts.head?

/-- The data carried by the `over` element in the config-object variant:
`over.data.current?.entity`, `over.data.current?.dragDropConfig`, `over.rect`. -/
structure OverData (α : Type) where
  entity : Option α
  dragDropConfig : Option (DragDropConfig α)
  rect : Rect

/-- `onDragMove` of the config-object hook, sceneExplorerDragDrop.ts lines
217-292: guard checks, coordinate extraction, zone classification, the
"after an expanded node redirects to before its first child" resolution, and
the `canDrop` validation (section config of the resolved target, then the
service-level callback). -/
def onDragMove [DecidableEq α] (getId : α → Nat)
    (allTreeItems : Nat → Option (TreeItemData α)) (openItems : Nat → Bool)
    (canDropCallback : Option (α → α → DropPosition → Bool))
    (over : Option (OverData α)) (activatorEvent : ActivatorEvent) (deltaY : ℚ)
    (s : ConfigState α) : ConfigState α :=
  match over, s.draggedEntity with
  | none, _ => clearHover s
  | some _, none => clearHover s
  | some over, some dragged =>
    match over.entity, over.dragDropConfig with
    | some targetEntity, some dragDropConfig =>
      if targetEntity = dragged then
        clearHover s
      else
        match extractClientY activatorEvent with
        | none => s
        | some clientY =>
          let currentY := clientY + deltaY
          let dropPos := calculateDropPosition currentY over.rect
          let orig : α × DropPosition × DragDropConfig α := (targetEntity, dropPos, dragDropConfig)
          let resolved :=
            if dropPos = .after then
              match allTreeItems (getId targetEntity) with
              | some targetTreeItem =>
                if targetTreeItem.type = "entity" ∧ targetTreeItem.children.isEmpty = false ∧
                    openItems (getId targetEntity) = true then
                  match targetTreeItem.children.head? with
                  | some firstChild =>
                    match firstChild.dragDropConfig with
                    | some childConfig =>
                      if firstChild.type = "entity" ∧ firstChild.entity ≠ dragged then
                        (firstChild.entity, DropPosition.before, childConfig)
                      else orig
                    | none => orig
                  | none => orig
                else orig
              | none => orig
            else orig
          let sectionCanDrop :=
            ((resolved.2.2.canDrop).map (fun f => f dragged resolved.1 resolved.2.1)).getD true
          let serviceCanDrop :=
            (canDropCallback.map (fun f => f dragged resolved.1 resolved.2.1)).getD true
          if sectionCanDrop && serviceCanDrop then
            { s with currentDropPosition := some resolved.2.1, currentDropTarget := some resolved.1 }
          else
            clearHover s
    | _, _ => clearHover s

/-- The `allTreeItems` lookup in `onDragEnd`: the mutation config is read from
the DRAGGED entity's own tree item, and only when that item's type is
`"entity"`. -/
def lookupDragDropConfig (getId : α → Nat)
    (allTreeItems : Nat → Option (TreeItemData α)) (entity : α) :
    Option (DragDropConfig α) :=
  match allTreeItems (getId entity) with
  | some treeItem => if treeItem.type = "entity" then treeItem.dragDropConfig else none
  | none => none

/-- The observable outcome of `onDragEnd` of the config-object hook:
the arguments passed to the consumer `onDrop` hook (if called), the
arguments passed to `performDrop` (if invoked), and the resulting state. -/
structure DragEndOutcome (α : Type) where
  onDropCall : Option (DropResult α)
  performDropCall : Option (DropResult α)
  state : ConfigState α
  deriving DecidableEq, Repr

/-- `onDragEnd` of the config-object hook, sceneExplorerDragDrop.ts lines
294-325: when the hover state is fully populated and the dragged entity's
tree item provides a config, call the consumer hook (modelled as a function
returning whether it called `preventDefault`), and unless prevented invoke
`performDrop` and set `lastDropResult`; always `resetState` at the end. -/
def onDragEnd (getId : α → Nat)
    (allTreeItems : Nat → Option (TreeItemData α))
    (onDrop : Option (α → α → DropPosition → Bool))
    (s : ConfigState α) : DragEndOutcome α :=
  match s.currentDropTarget, s.currentDropPosition, s.draggedEntity with
  | some target, some position, some droppedEntity =>
    match lookupDragDropConfig getId allTreeItems droppedEntity with
    | some dragDropConfig =>
      let isDefaultPrevented := (onDrop.map (fun f => f droppedEntity target position)).getD false
      if isDefaultPrevented then
        { onDropCall := some ⟨droppedEntity, target, position⟩,
          performDropCall := none,
          state := resetState s }
      else
        { onDropCall := some ⟨droppedEntity, target, position⟩,
          performDropCall :=
            if dragDropConfig.hasPerformDrop then some ⟨droppedEntity, target, position⟩ else none,
          state := resetState { s with lastDropResult := some ⟨droppedEntity, target, position⟩ } }
    | none => { onDropCall := none, performDropCall := none, state := resetState s }
  | _, _, _ => { onDropCall := none, performDropCall := none, state := resetState s }

/-- `DropVisual` of the provider-based variant: `{type:"border"}`,
`{type:"edge", edge:"top"|"bottom"}`, `{type:"none"}`. -/
inductive DropVisual
  | border
  | edgeTop
  | edgeBottom
  | noIndicator
  deriving DecidableEq, Repr

/-- `DropEvaluation<TDropData>` of the provider-based variant. -/
inductive DropEvaluation (β : Type)
  | noDrop
  | validDrop (visual : DropVisual) (dropData : β)
  deriving DecidableEq, Repr

/-- `DragDropProvider<T, TDropData>` of the provider-based variant.  The
`onDrop` mutation is effectful; the coordinator model reports its arguments
instead of running it, so the structure carries only the two pure members. -/
structure DragDropProvider (α β : Type) where
  canDrag : α → Bool
  evaluateDrop : α → α → ℚ → Rect → DropEvaluation β

/-- `DropResult` of the provider-based variant (dragged, target, the visual
shown at drop time). -/
structure ProvDropResult (α : Type) where
  draggedEntity : α
  targetEntity : α
  dropVisual : DropVisual
  deriving DecidableEq, Repr

/-- The session state of the provider-based hook: the `useState` values plus
the `DropState` record in `dropStateRef` (kept in lockstep, stored once). -/
structure ProviderState (α β : Type) where
  draggedEntity : Option α
  visual : Option DropVisual
  dropData : Option β
  target : Option α
  provider : Option (DragDropProvider α β)
  lastDropResult : Option (ProvDropResult α)

/-- The initial session state of the provider-based hook. -/
def provInitialState (α β : Type) : ProviderState α β :=
  { draggedEntity := none, visual := none, dropData := none, target := none,
    provider := none, lastDropResult := none }

/-- `resetState` of the provider-based hook: all five session fields to null;
`lastDropResult` is not touched by it. -/
def provResetState (s : ProviderState α β) : ProviderState α β :=
  { s with
    draggedEntity := none, visual := none, dropData := none, target := none,
    provider := none }

/-- `clearDropState` inside the provider-based `onDragMove`: clears the four
hover fields (visual, dropData, target, provider). -/
def clearDropState (s : ProviderState α β) : ProviderState α β :=
  { s with visual := none, dropData := none, target := none, provider := none }

/-- `onDragStart` of the provider-based hook: requires an entity, clears the
previous drop result, checks the provider-level `canDrag` (default true when
no provider is attached to the active data). -/
def provOnDragStart (entity : Option α) (provider : Option (DragDropProvider α β))
    (s : ProviderState α β) : ProviderState α β :=
  match entity with
  | none => s
  | some e =>
    let s := { s with lastDropResult := none }
    let providerCanDrag := (provider.map (fun p => p.canDrag e)).getD true
    if providerCanDrag then
      { s with draggedEntity := some e }
    else
      s

/-- The data carried by the `over` element in the provider-based variant. -/
structure ProvOverData (α β : Type) where
  entity : Option α
  provider : Option (DragDropProvider α β)
  rect : Rect

/-- `onDragMove` of the provider-based hook: guard checks, coordinate
extraction (a plain `return` when no coordinate is extractable), then the
provider's `evaluateDrop` decides whether the hover state is populated or
cleared. -/
def provOnDragMove [DecidableEq α] (over : Option (ProvOverData α β))
    (activatorEvent : ActivatorEvent) (deltaY : ℚ)
    (s : ProviderState α β) : ProviderState α β :=
  match over, s.draggedEntity with
  | none, _ => clearDropState s
  | some _, none => clearDropState s
  | some over, some dragged =>
    match over.entity, over.provider with
    | some targetEntity, some provider =>
      if targetEntity = dragged then
        clearDropState s
      else
        match extractClientY activatorEvent with
        | none => s
        | some clientY =>
          let currentY := clientY + deltaY
          match provider.evaluateDrop dragged targetEntity currentY over.rect with
          | .validDrop visual dropData =>
            { s with
              visual := some visual, dropData := some dropData,
              target := some targetEntity, provider := some provider }
          | .noDrop => clearDropState s
    | _, _ => clearDropState s

/-- `onDragEnd` of the provider-based hook: when all five session fields are
populated, the provider's `onDrop(droppedEntity, target, dropData)` is
invoked (reported as the first component) and `lastDropResult` is set;
always `resetState`. -/
def provOnDragEnd (s : ProviderState α β) :
    Option (α × α × β) × ProviderState α β :=
  match s.target, s.visual, s.dropData, s.draggedEntity, s.provider with
  | some target, some visual, some dropData, some droppedEntity, some _ =>
    (some (droppedEntity, target, dropData),
     provResetState { s with lastDropResult := some ⟨droppedEntity, target, visual⟩ })
  | _, _, _, _, _ => (none, provResetState s)

/-- One drag lifecycle event of the provider-based hook, with the external
inputs each handler reads. -/
inductive DragOp (α β : Type)
  | start (entity : Option α) (provider : Option (DragDropProvider α β))
  | move (over : Option (ProvOverData α β)) (activatorEvent : ActivatorEvent) (deltaY : ℚ)
  | finish
  | cancel

/-- Apply one lifecycle event to the session state (`onDragCancel` is
`resetState`). -/
def applyDragOp [DecidableEq α] : DragOp α β → ProviderState α β → ProviderState α β
  | .start e p, s => provOnDragStart e p s
  | .move o ev dy, s => provOnDragMove o ev dy s
  | .finish, s => (provOnDragEnd s).2
  | .cancel, s => provResetState s

/-- The session state after a sequence of lifecycle events from the initial
state. -/
def runDragOps [DecidableEq α] (ops : List (DragOp α β)) : ProviderState α β :=
  ops.foldl (fun s op => applyDragOp op s) (provInitialState α β)

/-- The all-null-or-all-populated condition on the hover tuple
(target, visual, dropData, provider) of the provider-based session record. -/
def hoverConsistent (s : ProviderState α β) : Prop :=
  (s.target.isSome = true ∧ s.visual.isSome = true ∧ s.dropData.isSome = true ∧
    s.provider.isSome = true) ∨
  (s.target = none ∧ s.visual = none ∧ s.dropData = none ∧ s.provider = none)

/-- The `position` field of the reorder drop data: `"before" | "after"`. -/
inductive BeforeAfter
  | before
  | after
  deriving DecidableEq, Repr

/-- `DropData` of reorderDragProvider.ts: a reparent action (new parent is a
node) or a reorder action (new parent may be null for root level, plus the
insert position relative to a reference node). -/
inductive NodeDropData (α : Type)
  | reparent (newParent : α)
  | reorder (newParent : Option α) (position : BeforeAfter) (referenceNode : α)
  deriving DecidableEq, Repr

/-- `evaluateDrop` of `createReorderDragProvider`:
cycle detection first, then the optional `isSiblingReorderDisabled` callback
(absent callback behaves as false), then the 15% / 85% relative-offset split.
`isDescendantOf t d` stands for `t.isDescendantOf(d)` and `parent` for the
`.parent` accessor of the scene graph at evaluation time. -/
def reorderEvaluateDrop [DecidableEq α]
    (isSiblingReorderDisabled : Option Bool)
    (isDescendantOf : α → α → Bool) (parent : α → Option α)
    (dragged target : α) (pointerY : ℚ) (targetRect : Rect) :
    DropEvaluation (NodeDropData α) :=
  if target = dragged ∨ isDescendantOf target dragged = true then
    .noDrop
  else if isSiblingReorderDisabled.getD false then
    .validDrop .border (.reparent target)
  else
    let relativeY := (pointerY - targetRect.top) / targetRect.height
    if relativeY < 15 / 100 then
      .validDrop .edgeTop (.reorder (parent target) .before target)
    else if relativeY > 85 / 100 then
      .validDrop .edgeBottom (.reorder (parent target) .after target)
    else
      .validDrop .border (.reparent target)

/-- `evaluateDrop` of `createReparentDragProvider`: cycle detection, then a
border visual with `{ newParent: target }` as drop data. -/
def reparentEvaluateDrop [DecidableEq α] (isDescendantOf : α → α → Bool)
    (dragged target : α) : DropEvaluation α :=
  if target = dragged ∨ isDescendantOf target dragged = true then
    .noDrop
  else
    .validDrop .border target

/-- JavaScript `Array.prototype.indexOf`: first index of `a`, `-1` when
absent. -/
def jsIndexOf [DecidableEq α] (l : List α) (a : α) : Int :=
  if a ∈ l then (List.indexOf a l : Int) else -1

/-- The sibling-splice of the reorder branch of `onDrop` in
reorderDragProvider.ts: locate both indices, and when both exist and differ,
remove the dragged entity, shift the reference index down by one when the
dragged entity was before it, add one for position `"after"`, and reinsert. -/
def reorderSiblings [DecidableEq α] (dragged referenceNode : α)
    (position : BeforeAfter) (siblings : List α) : List α :=
  let draggedIndex := jsIndexOf siblings dragged
  let referenceIndex := jsIndexOf siblings referenceNode
  if draggedIndex ≠ -1 ∧ referenceIndex ≠ -1 ∧ draggedIndex ≠ referenceIndex then
    let removed := siblings.eraseIdx draggedIndex.toNat
    let insertIndex := (if draggedIndex < referenceIndex then referenceIndex - 1
      else referenceIndex) + (if position = .after then 1 else 0)
    removed.insertIdx insertIndex.toNat dragged
  else
    siblings

/-- The observable outcome of the reorder branch of `onDrop`: whether
`setNodeParent` was called (the code reparents exactly when
`dragged.parent !== newParent`), and the sibling collection after the
splice. -/
structure ReorderDropOutcome (α : Type) where
  reparented : Bool
  siblings : List α
  deriving DecidableEq, Repr

/-- The reorder branch of `onDrop` in reorderDragProvider.ts, acting on the
(now-correct) sibling collection obtained from `getChildrenArray` after the
conditional reparent. `draggedParent` is `dragged.parent` at drop time. -/
def reorderOnDrop [DecidableEq α] (draggedParent : Option α) (dragged : α)
    (newParent : Option α) (position : BeforeAfter) (referenceNode : α)
    (siblings : List α) : ReorderDropOutcome α :=
  { reparented := draggedParent ≠ newParent,
    siblings := reorderSiblings dragged referenceNode position siblings }

/-- A root-level node with its cached `_sceneRootNodesIndex`. -/
structure RootNode where
  id : Nat
  sceneRootNodesIndex : Nat
  deriving DecidableEq, Repr

/-- `updateRootNodeIndices` from reorderDragProvider.ts: re-synchronize every
root node's cached positional index to its array index. -/
def updateRootNodeIndices (rootNodes : List RootNode) : List RootNode :=
  rootNodes.mapIdx (fun index node => { node with sceneRootNodesIndex := index })

/-- C3: for target height `h > 0`, the 3-zone classifier returns "before" iff
the offset is under `0.25 h`, "after" iff over `0.85 h`, and "inside"
otherwise (in particular an offset of exactly `0.25 h` yields "inside", not
"before"); the 2-threshold reorder provider (cycle check passed, sibling
reorder enabled) returns insert-before iff the relative offset is below 0.15,
insert-after iff above 0.85, and the reparent action otherwise. -/
theorem calculateDropPosition_zone_thresholds {α : Type} [DecidableEq α]
    (clientY top height : ℚ) (hh : 0 < height)
    (isDescendantOf : α → α → Bool) (parent : α → Option α)
    (dragged target : α)
    (hne : target ≠ dragged) (hdesc : isDescendantOf target dragged = false) :
    (calculateDropPosition clientY ⟨top, height⟩ = .before ↔
      clientY - top < height * (25 / 100)) ∧
    (calculateDropPosition clientY ⟨top, height⟩ = .after ↔
      clientY - top > height * (85 / 100)) ∧
    (calculateDropPosition clientY ⟨top, height⟩ = .inside ↔
      ¬(clientY - top < height * (25 / 100)) ∧ ¬(clientY - top > height * (85 / 100))) ∧
    calculateDropPosition (top + height * (25 / 100)) ⟨top, height⟩ = .inside ∧
    (reorderEvaluateDrop none isDescendantOf parent dragged target clientY ⟨top, height⟩ =
        .validDrop .edgeTop (.reorder (parent target) .before target) ↔
      (clientY - top) / height < 15 / 100) ∧
    (reorderEvaluateDrop none isDescendantOf parent dragged target clientY ⟨top, height⟩ =
        .validDrop .edgeBottom (.reorder (parent target) .after target) ↔
      (clientY - top) / height > 85 / 100) ∧
    (reorderEvaluateDrop none isDescendantOf parent dragged target clientY ⟨top, height⟩ =
        .validDrop .border (.reparent target) ↔
      ¬((clientY - top) / height < 15 / 100) ∧ ¬((clientY - top) / height > 85 / 100)) := by
  have hcyc : ¬(target = dragged ∨ isDescendantOf target dragged = true) := by
    simp [hne, hdesc]
  refine ⟨?_, ?_, ?_, ?_, ?_, ?_, ?_⟩
  · unfold calculateDropPosition
    dsimp only
    split_ifs with h1 h2 <;> simp_all
  · unfold calculateDropPosition
    dsimp only
    split_ifs with h1 h2 <;> simp_all <;> linarith
  · unfold calculateDropPosition
    dsimp only
    split_ifs with h1 h2 <;> simp_all
  · unfold calculateDropPosition
    dsimp only
    have h1 : ¬(top + height * (25 / 100) - top < height * (25 / 100)) := by linarith
    have h2 : ¬(top + height * (25 / 100) - top > height * (85 / 100)) := by nlinarith
    rw [if_neg h1, if_neg h2]
  · unfold reorderEvaluateDrop
    rw [if_neg hcyc]
    dsimp only [Option.getD]
    split_ifs with h1 h2 <;> simp_all <;> linarith
  · unfold reorderEvaluateDrop
    rw [if_neg hcyc]
    dsimp only [Option.getD]
    split_ifs with h1 h2 <;> simp_all <;> linarith
  · unfold reorderEvaluateDrop
    rw [if_neg hcyc]
    dsimp only [Option.getD]
    split_ifs with h1 h2 <;> simp_all

/-- Witness for C3: the classifier and the 2-threshold provider evaluated at
concrete inputs through the theorem. -/
theorem calculateDropPosition_zone_thresholds_witness :
    calculateDropPosition 2 ⟨0, 10⟩ = .before :=
  (calculateDropPosition_zone_thresholds (α := ℕ) 2 0 10 (by norm_num)
    (fun _ _ => false) (fun _ => none) 0 1 (by decide) rfl).1.mpr (by norm_num)

/-- C6: when the sibling-reorder toggle reports true, for every dragged/target
pair passing cycle detection the reorder provider's evaluation is the
reparent action onto the target (canDrop true, border visual, newParent =
target), for every pointer position and target rectangle, so the reorder
results are unreachable. -/
theorem reorderEvaluateDrop_disabled_always_reparent {α : Type} [DecidableEq α]
    (isDescendantOf : α → α → Bool) (parent : α → Option α)
    (dragged target : α) (pointerY : ℚ) (targetRect : Rect)
    (hcycle : ¬(target = dragged ∨ isDescendantOf target dragged = true)) :
    reorderEvaluateDrop (some true) isDescendantOf parent dragged target pointerY targetRect =
      .validDrop .border (.reparent target) := by
  unfold reorderEvaluateDrop
  rw [if_neg hcycle]
  simp

/-- Witness for C6 at a concrete pair in the bottom edge zone. -/
theorem reorderEvaluateDrop_disabled_always_reparent_witness :
    reorderEvaluateDrop (some true) (fun _ _ => false) (fun _ => none) 0 1 9 ⟨0, 10⟩ =
      .validDrop .border (.reparent 1) :=
  reorderEvaluateDrop_disabled_always_reparent (fun _ _ => false) (fun _ => none) 0 1 9 ⟨0, 10⟩
    (by decide)

/-- C7: a hover update whose activator event has no extractable coordinate
(no clientY and no non-empty touch list) is a no-op: with a dragged entity
and a valid hover target carrying a config present, the handler returns the
session record unchanged in every field, stale hover sub-state included. -/
theorem onDragMove_no_coordinates_noop {α : Type} [DecidableEq α]
    (getId : α → Nat) (allTreeItems : Nat → Option (TreeItemData α)) (openItems : Nat → Bool)
    (canDropCallback : Option (α → α → DropPosition → Bool))
    (over : OverData α) (activatorEvent : ActivatorEvent) (deltaY : ℚ)
    (s : ConfigState α) (dragged target : α) (cfg : DragDropConfig α)
    (hs : s.draggedEntity = some dragged)
    (hov : over.entity = some target) (hcfg : over.dragDropConfig = some cfg)
    (hne : target ≠ dragged)
    (hev : extractClientY activatorEvent = none) :
    onDragMove getId allTreeItems openItems canDropCallback (some over) activatorEvent deltaY s
      = s := by
  unfold onDragMove
  rw [hs]
  dsimp only
  rw [hov, hcfg]
  dsimp only
  rw [if_neg hne, hev]

/-- Witness for C7: an empty touch list leaves a populated session untouched. -/
theorem onDragMove_no_coordinates_noop_witness :
    onDragMove (fun i => i) (fun _ => none) (fun _ => false) none
      (some { entity := some 1, dragDropConfig := some ⟨none, none, true⟩,
              rect := { top := 0, height := 10 } })
      (.touchList []) 0
      { draggedEntity := some 0, currentDropPosition := some .inside,
        currentDropTarget := some 1, lastDropResult := none } =
      { draggedEntity := some 0, currentDropPosition := some .inside,
        currentDropTarget := some 1, lastDropResult := none } :=
  onDragMove_no_coordinates_noop (fun i => i) (fun _ => none) (fun _ => false) none
    _ (.touchList []) 0 _ 0 1 ⟨none, none, true⟩ rfl rfl rfl (by decide) rfl

/-- C5: on release over a fully populated hover state, if the consumer
interception hook calls preventDefault then `performDrop` is never invoked,
`lastDropResult` is left unchanged (no result is published), and the session
still resets to idle (dragged entity, position, target all null). -/
theorem onDragEnd_prevented_no_mutation {α : Type} [DecidableEq α]
    (getId : α → Nat) (allTreeItems : Nat → Option (TreeItemData α))
    (hook : α → α → DropPosition → Bool)
    (s : ConfigState α) (dragged target : α) (position : DropPosition)
    (hT : s.currentDropTarget = some target)
    (hP : s.currentDropPosition = some position)
    (hD : s.draggedEntity = some dragged)
    (hprev : hook dragged target position = true) :
    (onDragEnd getId allTreeItems (some hook) s).performDropCall = none ∧
    (onDragEnd getId allTreeItems (some hook) s).state.lastDropResult = s.lastDropResult ∧
    (onDragEnd getId allTreeItems (some hook) s).state.draggedEntity = none ∧
    (onDragEnd getId allTreeItems (some hook) s).state.currentDropPosition = none ∧
    (onDragEnd getId allTreeItems (some hook) s).state.currentDropTarget = none := by
  unfold onDragEnd
  rw [hT, hP, hD]
  dsimp only
  cases hcfg : lookupDragDropConfig getId allTreeItems dragged with
  | none => simp [resetState]
  | some cfg => simp [hprev, resetState]

/-- Witness for C5: a hook that always prevents, over a populated session. -/
theorem onDragEnd_prevented_no_mutation_witness :
    (onDragEnd (fun i => i) (fun _ => none) (some (fun _ _ _ => true))
        { draggedEntity := some 0, currentDropPosition := some .after,
          currentDropTarget := some 1, lastDropResult := none }).performDropCall = none :=
  (onDragEnd_prevented_no_mutation (fun i => i) (fun _ => none) (fun _ _ _ => true)
    _ 0 1 .after rfl rfl rfl rfl).1

/-- C10: on release with a fully populated hover state, the mutation config is
looked up from the dragged entity's own tree item; when that lookup yields no
config (item absent, type not "entity", or no dragDropConfig), the consumer
hook is not called, no mutation runs, no last drop result is published, and
the session still resets to idle; when the dragged entity's lookup does yield
a config with a performDrop, the mutation runs with the recorded target and
position (independently of the hover target's own tree item). -/
theorem onDragEnd_config_from_dragged_item {α : Type} [DecidableEq α]
    (getId : α → Nat) (allTreeItems : Nat → Option (TreeItemData α))
    (hook : Option (α → α → DropPosition → Bool))
    (s : ConfigState α) (dragged target : α) (position : DropPosition)
    (hT : s.currentDropTarget = some target)
    (hP : s.currentDropPosition = some position)
    (hD : s.draggedEntity = some dragged)
    (hfail : lookupDragDropConfig getId allTreeItems dragged = none) :
    (onDragEnd getId allTreeItems hook s).onDropCall = none ∧
    (onDragEnd getId allTreeItems hook s).performDropCall = none ∧
    (onDragEnd getId allTreeItems hook s).state.lastDropResult = s.lastDropResult ∧
    (onDragEnd getId allTreeItems hook s).state.draggedEntity = none ∧
    (onDragEnd getId allTreeItems hook s).state.currentDropPosition = none ∧
    (onDragEnd getId allTreeItems hook s).state.currentDropTarget = none ∧
    (∀ (allTreeItems' : Nat → Option (TreeItemData α)) (dropCfg : DragDropConfig α),
      lookupDragDropConfig getId allTreeItems' dragged = some dropCfg →
      dropCfg.hasPerformDrop = true →
      (onDragEnd getId allTreeItems' none s).performDropCall =
        some ⟨dragged, target, position⟩) := by
  have base : onDragEnd getId allTreeItems hook s =
      { onDropCall := none, performDropCall := none, state := resetState s } := by
    unfold onDragEnd
    rw [hT, hP, hD]
    dsimp only
    rw [hfail]
  refine ⟨?_, ?_, ?_, ?_, ?_, ?_, ?_⟩
  · rw [base]
  · rw [base]
  · rw [base]; simp [resetState]
  · rw [base]; simp [resetState]
  · rw [base]; simp [resetState]
  · rw [base]; simp [resetState]
  · intro allTreeItems' dropCfg hsome hperf
    unfold onDragEnd
    rw [hT, hP, hD]
    dsimp only
    rw [hsome]
    simp [hperf]

/-- C9: on a drag-start event carrying an entity, starting from an idle
session, the dragged-entity field is set exactly when every applicable
canDrag check approves: in the config-object variant the section-level config
and the service-level callback (each defaulting to true when unset), in the
provider variant the provider's canDrag; and while the dragged-entity field
is null, a release produces no consumer call and no mutation. -/
theorem onDragStart_canDrag_gate {α β : Type} [DecidableEq α]
    (canDragCallback : Option (α → Bool)) (cfg : Option (DragDropConfig α)) (e : α)
    (s : ConfigState α) (hs : s.draggedEntity = none)
    (p : Option (DragDropProvider α β)) (ps : ProviderState α β)
    (hps : ps.draggedEntity = none) :
    ((onDragStart canDragCallback (some e) cfg s).draggedEntity =
      if ((cfg.bind (fun c => c.canDrag)).map (fun f => f e)).getD true &&
          (canDragCallback.map (fun f => f e)).getD true then some e else none) ∧
    ((provOnDragStart (some e) p ps).draggedEntity =
      if (p.map (fun q => q.canDrag e)).getD true then some e else none) ∧
    (∀ (getId : α → Nat) (allTreeItems : Nat → Option (TreeItemData α))
        (hook : Option (α → α → DropPosition → Bool)) (s' : ConfigState α),
      s'.draggedEntity = none →
      (onDragEnd getId allTreeItems hook s').onDropCall = none ∧
      (onDragEnd getId allTreeItems hook s').performDropCall = none) ∧
    (∀ ps' : ProviderState α β, ps'.draggedEntity = none → (provOnDragEnd ps').1 = none) := by
  refine ⟨?_, ?_, ?_, ?_⟩
  · unfold onDragStart
    dsimp only
    split_ifs with h <;> simp [hs]
  · unfold provOnDragStart
    dsimp only
    split_ifs with h <;> simp [hps]
  · intro getId allTreeItems hook s' hs'
    unfold onDragEnd
    rw [hs']
    rcases hT : s'.currentDropTarget with _ | t <;>
      rcases hP : s'.currentDropPosition with _ | q <;> exact ⟨rfl, rfl⟩
  · intro ps' hps'
    unfold provOnDragEnd
    rw [hps']
    rcases hT : ps'.target with _ | t <;> rcases hV : ps'.visual with _ | v <;>
      rcases hM : ps'.dropData with _ | m <;> rcases hQ : ps'.provider with _ | q <;> rfl


/-- A section config whose canDrag always refuses, for the C9 witness. -/
def alwaysFalseDragConfig : DragDropConfig ℕ :=
  { canDrag := some (fun _ => false), canDrop := none, hasPerformDrop := false }

/-- Witness for C9: an always-false section canDrag suppresses the drag, the
gate evaluated through the theorem. -/
theorem onDragStart_canDrag_gate_witness :
    (onDragStart (α := ℕ) none (some 0) (some alwaysFalseDragConfig)
        (initialConfigState ℕ)).draggedEntity =
      if (((some alwaysFalseDragConfig).bind (fun c => c.canDrag)).map (fun f => f 0)).getD true &&
          ((none : Option (ℕ → Bool)).map (fun f => f 0)).getD true then some 0 else none :=
  (onDragStart_canDrag_gate (β := ℕ) none (some alwaysFalseDragConfig) 0
    (initialConfigState ℕ) rfl none (provInitialState ℕ ℕ) rfl).1

/-- The provider-based `onDragStart` preserves the all-null-or-all-populated
condition on the hover tuple (it never touches those four fields). -/
theorem provOnDragStart_hoverConsistent {α β : Type}
    (entity : Option α) (provider : Option (DragDropProvider α β))
    (s : ProviderState α β) (h : hoverConsistent s) :
    hoverConsistent (provOnDragStart entity provider s) := by
  obtain ⟨de, vis, dd, tg, pv, lr⟩ := s
  rcases entity with _ | e
  · exact h
  unfold provOnDragStart
  dsimp only
  split_ifs with hc
  · exact h
  · exact h

/-- The provider-based `onDragMove` preserves the all-null-or-all-populated
condition: every exit either clears all four hover fields, populates all
four, or (missing coordinates) returns the state unchanged. -/
theorem provOnDragMove_hoverConsistent {α β : Type} [DecidableEq α]
    (over : Option (ProvOverData α β)) (ev : ActivatorEvent) (dy : ℚ)
    (s : ProviderState α β) (h : hoverConsistent s) :
    hoverConsistent (provOnDragMove over ev dy s) := by
  obtain ⟨de, vis, dd, tg, pv, lr⟩ := s
  rcases over with _ | ⟨oe, op, orect⟩
  · exact Or.inr ⟨rfl, rfl, rfl, rfl⟩
  rcases de with _ | d
  · exact Or.inr ⟨rfl, rfl, rfl, rfl⟩
  rcases oe with _ | t
  · exact Or.inr ⟨rfl, rfl, rfl, rfl⟩
  rcases op with _ | p
  · exact Or.inr ⟨rfl, rfl, rfl, rfl⟩
  unfold provOnDragMove
  dsimp only
  split_ifs with ht
  · exact Or.inr ⟨rfl, rfl, rfl, rfl⟩
  cases hy : extractClientY ev with
  | none => exact h
  | some y =>
    dsimp only
    cases he : p.evaluateDrop d t (y + dy) orect with
    | noDrop => exact Or.inr ⟨rfl, rfl, rfl, rfl⟩
    | validDrop v m => exact Or.inl ⟨rfl, rfl, rfl, rfl⟩

/-- The provider-based `onDragEnd` leaves the hover tuple all null (it always
ends in `resetState`). -/
theorem provOnDragEnd_hoverConsistent {α β : Type} (s : ProviderState α β) :
    hoverConsistent (provOnDragEnd s).2 := by
  obtain ⟨de, vis, dd, tg, pv, lr⟩ := s
  rcases tg with _ | t <;> rcases vis with _ | v <;> rcases dd with _ | m <;>
    rcases de with _ | d <;> rcases pv with _ | p <;> exact Or.inr ⟨rfl, rfl, rfl, rfl⟩

/-- Each lifecycle handler of the provider-based hook preserves the
all-null-or-all-populated condition on the hover tuple. -/
theorem applyDragOp_preserves_hoverConsistent {α β : Type} [DecidableEq α]
    (op : DragOp α β) (s : ProviderState α β) (h : hoverConsistent s) :
    hoverConsistent (applyDragOp op s) := by
  cases op with
  | start e p => exact provOnDragStart_hoverConsistent e p s h
  | move over ev dy => exact provOnDragMove_hoverConsistent over ev dy s h
  | finish => exact provOnDragEnd_hoverConsistent s
  | cancel => exact Or.inr ⟨rfl, rfl, rfl, rfl⟩

/-- C4: after any sequence of drag lifecycle events (start, hover update,
end, cancel) from the initial state, the (target, visual, dropData, provider)
fields of the provider-based session record are either all null or all
non-null; no event sequence leaves them partially populated. -/
theorem runDragOps_hoverConsistent {α β : Type} [DecidableEq α]
    (ops : List (DragOp α β)) : hoverConsistent (runDragOps ops) := by
  have step : ∀ (l : List (DragOp α β)) (s : ProviderState α β), hoverConsistent s →
      hoverConsistent (l.foldl (fun s op => applyDragOp op s) s) := by
    intro l
    induction l with
    | nil => intro s hs; exact hs
    | cons op l ih =>
      intro s hs
      exact ih _ (applyDragOp_preserves_hoverConsistent op s hs)
  exact step ops _ (Or.inr ⟨rfl, rfl, rfl, rfl⟩)

/-- Witness for C4: the invariant evaluated through the theorem on a concrete
event sequence (a start followed by an end). -/
theorem runDragOps_hoverConsistent_witness :
    hoverConsistent (runDragOps [DragOp.start (α := ℕ) (β := ℕ) (some 0) none, DragOp.finish]) :=
  runDragOps_hoverConsistent [DragOp.start (some 0) none, DragOp.finish]

/-- Under the C8 hypotheses the guard of the splice holds, and the JavaScript
index arithmetic coincides with: remove at the dragged index, then insert at
the reference index, minus one when the dragged index was smaller, plus one
for position "after". -/
theorem reorderSiblings_eq_spliced {α : Type} [DecidableEq α]
    (dragged referenceNode : α) (position : BeforeAfter) (siblings : List α)
    (h1 : dragged ∈ siblings) (h2 : referenceNode ∈ siblings)
    (h3 : dragged ≠ referenceNode) :
    reorderSiblings dragged referenceNode position siblings =
      (siblings.eraseIdx (List.indexOf dragged siblings)).insertIdx
        ((if List.indexOf dragged siblings < List.indexOf referenceNode siblings
          then List.indexOf referenceNode siblings - 1
          else List.indexOf referenceNode siblings) +
         (if position = .after then 1 else 0)) dragged := by
  have hij : List.indexOf dragged siblings ≠ List.indexOf referenceNode siblings :=
    fun hEq => h3 ((List.indexOf_inj h1 h2).1 hEq)
  unfold reorderSiblings jsIndexOf
  rw [if_pos h1, if_pos h2]
  dsimp only
  rw [if_pos ⟨by omega, by omega, by
    intro hEq
    exact hij (by exact_mod_cast hEq)⟩]
  have e1 : ((List.indexOf dragged siblings : Int)).toNat = List.indexOf dragged siblings :=
    Int.toNat_natCast _
  have e2 : (((if ((List.indexOf dragged siblings : Int)) < ((List.indexOf referenceNode siblings : Int))
        then ((List.indexOf referenceNode siblings : Int)) - 1
        else ((List.indexOf referenceNode siblings : Int))) +
      (if position = .after then 1 else 0)).toNat) =
      ((if List.indexOf dragged siblings < List.indexOf referenceNode siblings
        then List.indexOf referenceNode siblings - 1
        else List.indexOf referenceNode siblings) +
       (if position = .after then 1 else 0)) := by
    split_ifs <;> omega
  rw [e1, e2]

/-- Inserting `x` at index `n` of `l` puts `x` immediately before the former
`l[n]`. -/
theorem insertIdx_pair_before {α : Type} (l : List α) (x y : α) (n : ℕ)
    (hn : n < l.length) (hy : l[n]? = some y) :
    (l.insertIdx n x)[n]? = some x ∧ (l.insertIdx n x)[n + 1]? = some y := by
  have hlen : (l.insertIdx n x).length = l.length + 1 :=
    List.length_insertIdx n l (le_of_lt hn)
  constructor
  · rw [List.getElem?_eq_getElem (by omega)]
    rw [List.getElem_insertIdx_self l x n (le_of_lt hn)]
  · rw [List.getElem?_eq_getElem (by omega)]
    have hstep := List.getElem_insertIdx_add_succ l x n 0 (by omega)
    simp only [Nat.add_zero] at hstep
    rw [hstep]
    rw [List.getElem?_eq_getElem hn] at hy
    simpa using hy

/-- Inserting `x` at index `n + 1` of `l` puts `x` immediately after `l[n]`. -/
theorem insertIdx_pair_after {α : Type} (l : List α) (x y : α) (n : ℕ)
    (hn : n < l.length) (hy : l[n]? = some y) :
    (l.insertIdx (n + 1) x)[n]? = some y ∧ (l.insertIdx (n + 1) x)[n + 1]? = some x := by
  have hlen : (l.insertIdx (n + 1) x).length = l.length + 1 :=
    List.length_insertIdx (n + 1) l (by omega)
  constructor
  · rw [List.getElem?_eq_getElem (by omega)]
    rw [List.getElem_insertIdx_of_lt l x (n + 1) n (by omega) hn]
    rw [List.getElem?_eq_getElem hn] at hy
    simpa using hy
  · rw [List.getElem?_eq_getElem (by omega)]
    rw [List.getElem_insertIdx_self l x (n + 1) (by omega)]

/-- After removing index `i`, the element that was at index `j ≠ i` sits at
`j - 1` when `i < j` and still at `j` otherwise. -/
theorem eraseIdx_adjusted_getElem {α : Type} (l : List α) (i j : ℕ)
    (hi : i < l.length) (hj : j < l.length) (hij : i ≠ j) :
    (l.eraseIdx i)[if i < j then j - 1 else j]? = l[j]? := by
  have hlen : (l.eraseIdx i).length = l.length - 1 := by
    rw [List.length_eraseIdx]
    simp [hi]
  rcases Nat.lt_or_ge i j with hlt | hge
  · rw [if_pos hlt]
    rw [List.getElem?_eq_getElem (by omega), List.getElem?_eq_getElem hj]
    rw [List.getElem_eraseIdx, dif_neg (by omega)]
    have hj1 : j - 1 + 1 = j := by omega
    simp only [hj1]
  · have hlt' : j < i := by omega
    rw [if_neg (by omega)]
    rw [List.getElem?_eq_getElem (by omega), List.getElem?_eq_getElem hj]
    rw [List.getElem_eraseIdx, dif_pos hlt']

/-- C8: for a reorder-action drop whose sibling collection contains both the
dragged entity and the reference node at distinct indices, `onDrop` reparents
exactly when the dragged entity's parent differs from the recorded newParent;
the splice removes the dragged entity and reinserts it at the reference index
minus one when the dragged index was smaller (plus one more for position
"after"), so the dragged entity ends up immediately before (position
"before") or immediately after (position "after") the reference node, with
the collection's length unchanged; and at root level
`updateRootNodeIndices` re-synchronizes every root node's cached positional
index to its array index. -/
theorem reorderOnDrop_spec {α : Type} [DecidableEq α]
    (draggedParent newParent : Option α) (dragged referenceNode : α)
    (position : BeforeAfter) (siblings : List α) (rootNodes : List RootNode)
    (h1 : dragged ∈ siblings) (h2 : referenceNode ∈ siblings)
    (h3 : dragged ≠ referenceNode) :
    ((reorderOnDrop draggedParent dragged newParent position referenceNode siblings).reparented
        = true ↔ draggedParent ≠ newParent) ∧
    (reorderOnDrop draggedParent dragged newParent position referenceNode siblings).siblings =
      reorderSiblings dragged referenceNode position siblings ∧
    reorderSiblings dragged referenceNode position siblings =
      (siblings.eraseIdx (List.indexOf dragged siblings)).insertIdx
        ((if List.indexOf dragged siblings < List.indexOf referenceNode siblings
          then List.indexOf referenceNode siblings - 1
          else List.indexOf referenceNode siblings) +
         (if position = .after then 1 else 0)) dragged ∧
    (reorderSiblings dragged referenceNode position siblings).length = siblings.length ∧
    (∃ k : ℕ,
      (position = .before →
        (reorderSiblings dragged referenceNode position siblings)[k]? = some dragged ∧
        (reorderSiblings dragged referenceNode position siblings)[k + 1]? =
          some referenceNode) ∧
      (position = .after →
        (reorderSiblings dragged referenceNode position siblings)[k]? = some referenceNode ∧
        (reorderSiblings dragged referenceNode position siblings)[k + 1]? = some dragged)) ∧
    (∀ i, i < rootNodes.length →
      (updateRootNodeIndices rootNodes)[i]?.map (fun n => n.sceneRootNodesIndex) = some i) := by
  have hi : List.indexOf dragged siblings < siblings.length := List.indexOf_lt_length.2 h1
  have hj : List.indexOf referenceNode siblings < siblings.length := List.indexOf_lt_length.2 h2
  have hij : List.indexOf dragged siblings ≠ List.indexOf referenceNode siblings :=
    fun hEq => h3 ((List.indexOf_inj h1 h2).1 hEq)
  have hspl := reorderSiblings_eq_spliced dragged referenceNode position siblings h1 h2 h3
  have hlenrm : (siblings.eraseIdx (List.indexOf dragged siblings)).length =
      siblings.length - 1 := by
    rw [List.length_eraseIdx]
    simp [hi]
  have hadj : (if List.indexOf dragged siblings < List.indexOf referenceNode siblings
      then List.indexOf referenceNode siblings - 1
      else List.indexOf referenceNode siblings) <
      (siblings.eraseIdx (List.indexOf dragged siblings)).length := by
    rw [hlenrm]
    split_ifs <;> omega
  have href : (siblings.eraseIdx (List.indexOf dragged siblings))[if
      List.indexOf dragged siblings < List.indexOf referenceNode siblings
      then List.indexOf referenceNode siblings - 1
      else List.indexOf referenceNode siblings]? = some referenceNode := by
    rw [eraseIdx_adjusted_getElem siblings _ _ hi hj hij]
    rw [List.getElem?_eq_getElem hj, List.getElem_indexOf hj]
  refine ⟨?_, rfl, hspl, ?_, ?_, ?_⟩
  · simp [reorderOnDrop]
  · rw [hspl]
    rw [List.length_insertIdx _ _ (by rw [hlenrm]; split_ifs <;> omega)]
    omega
  · refine ⟨(if List.indexOf dragged siblings < List.indexOf referenceNode siblings
      then List.indexOf referenceNode siblings - 1
      else List.indexOf referenceNode siblings), ?_, ?_⟩
    · intro hpos
      subst hpos
      rw [hspl]
      simp only [reduceCtorEq, if_false, Nat.add_zero]
      exact insertIdx_pair_before _ dragged referenceNode _ hadj href
    · intro hpos
      subst hpos
      rw [hspl]
      simp only [if_pos rfl]
      exact insertIdx_pair_after _ dragged referenceNode _ hadj href
  · intro i hi2
    have hlen2 : (updateRootNodeIndices rootNodes).length = rootNodes.length := by
      simp [updateRootNodeIndices]
    rw [List.getElem?_eq_getElem (by omega)]
    simp [updateRootNodeIndices, List.getElem_mapIdx]

/-- Witness for C8: the splice evaluated through the theorem on the concrete
collection [10, 20, 30], moving 10 after 30. -/
theorem reorderOnDrop_spec_witness :
    (reorderOnDrop (α := ℕ) none 10 none .after 30 [10, 20, 30]).siblings =
      reorderSiblings 10 30 .after [10, 20, 30] :=
  (reorderOnDrop_spec none none 10 30 .after [10, 20, 30] [] (by decide) (by decide)
    (by decide)).2.1

/-- A drag-drop config with no callbacks and a performDrop, for the concrete
counterexample scenes (all its validations default to true). -/
def plainConfig : DragDropConfig ℕ :=
  { canDrag := none, canDrop := none, hasPerformDrop := true }

/-- Concrete tree for the C2 counterexample: entity 1 is recorded as the child
of entity 0 (the tree mirrors a scene graph in which 1 descends from 0). -/
def cycleCexTreeItems : ℕ → Option (TreeItemData ℕ) := fun i =>
  if i = 0 then
    some { type := "entity",
           children := [{ type := "entity", entity := 1, dragDropConfig := some plainConfig }],
           dragDropConfig := some plainConfig }
  else if i = 1 then
    some { type := "entity", children := [], dragDropConfig := some plainConfig }
  else
    none

/-- C2 counterexample: in the config-object variant, dragging entity 0 over
entity 1 — a descendant of 0, as the tree records 1 as 0's child — in the
middle zone with no canDrop callbacks supplied populates the hover state: the
drop is accepted, so a descendant target does not yield canDrop = false in
every variant regardless of supplied validation. -/
theorem cycle_claim_counterexample :
    ((cycleCexTreeItems 0).map (fun it => it.children.map (fun c => c.entity))) = some [1] ∧
    (onDragMove (fun i => i) cycleCexTreeItems (fun _ => false) none
        (some { entity := some 1, dragDropConfig := some plainConfig,
                rect := { top := 0, height := 10 } })
        (.withClientY 5) 0
        { draggedEntity := some 0, currentDropPosition := none, currentDropTarget := none,
          lastDropResult := none }).currentDropTarget = some 1 ∧
    (onDragMove (fun i => i) cycleCexTreeItems (fun _ => false) none
        (some { entity := some 1, dragDropConfig := some plainConfig,
                rect := { top := 0, height := 10 } })
        (.withClientY 5) 0
        { draggedEntity := some 0, currentDropPosition := none, currentDropTarget := none,
          lastDropResult := none }).currentDropPosition = some .inside := by
  have hrun : onDragMove (fun i => i) cycleCexTreeItems (fun _ => false) none
      (some { entity := some 1, dragDropConfig := some plainConfig,
              rect := { top := 0, height := 10 } })
      (.withClientY 5) 0
      { draggedEntity := some 0, currentDropPosition := none, currentDropTarget := none,
        lastDropResult := none } =
      { draggedEntity := some 0, currentDropPosition := some .inside,
        currentDropTarget := some 1, lastDropResult := none } := by
    unfold onDragMove
    dsimp only [extractClientY]
    rw [if_neg (by decide)]
    have hpos : calculateDropPosition (5 + 0) { top := 0, height := 10 } =
        DropPosition.inside := by
      unfold calculateDropPosition
      dsimp only
      rw [if_neg (by norm_num), if_neg (by norm_num)]
    rw [hpos]
    simp [plainConfig]
  exact ⟨rfl, by rw [hrun], by rw [hrun]⟩

/-- C2 amended: the cycle rule holds unconditionally in both provider
variants — a target equal to the dragged entity or descending from it is
rejected by evaluateDrop regardless of the sibling-reorder toggle — while the
config-object coordinator's built-in check rejects only the self case
(clearing the hover sub-state); descendant rejection there is delegated to
the supplied canDrop callbacks. -/
theorem cycle_rule_enforced {α : Type} [DecidableEq α]
    (disabled : Option Bool) (isDescendantOf : α → α → Bool) (parent : α → Option α)
    (dragged target : α) (pointerY : ℚ) (targetRect : Rect)
    (hcycle : target = dragged ∨ isDescendantOf target dragged = true)
    (getId : α → Nat) (allTreeItems : Nat → Option (TreeItemData α)) (openItems : Nat → Bool)
    (canDropCallback : Option (α → α → DropPosition → Bool))
    (over : OverData α) (ev : ActivatorEvent) (dy : ℚ) (s : ConfigState α)
    (hs : s.draggedEntity = some dragged) (hov : over.entity = some dragged) :
    reorderEvaluateDrop disabled isDescendantOf parent dragged target pointerY targetRect =
      .noDrop ∧
    reparentEvaluateDrop isDescendantOf dragged target = .noDrop ∧
    onDragMove getId allTreeItems openItems canDropCallback (some over) ev dy s =
      clearHover s := by
  refine ⟨?_, ?_, ?_⟩
  · unfold reorderEvaluateDrop
    rw [if_pos hcycle]
  · unfold reparentEvaluateDrop
    rw [if_pos hcycle]
  · unfold onDragMove
    rw [hs]
    dsimp only
    rw [hov]
    cases hc : over.dragDropConfig with
    | none => rfl
    | some cfg =>
      dsimp only
      rw [if_pos rfl]

/-- Witness for the C2 amended theorem: a concrete descendant pair rejected by
the reorder provider. -/
theorem cycle_rule_enforced_witness :
    reorderEvaluateDrop none (fun _ _ => true) (fun _ => none) 0 1 5 ⟨0, 10⟩ =
      (.noDrop : DropEvaluation (NodeDropData ℕ)) :=
  (cycle_rule_enforced none (fun _ _ => true) (fun _ => none) 0 1 5 ⟨0, 10⟩
    (Or.inr rfl) (fun i => i) (fun _ => none) (fun _ => false) none
    { entity := some 0, dragDropConfig := none, rect := ⟨0, 10⟩ }
    (.withClientY 5) 0
    { draggedEntity := some 0, currentDropPosition := none, currentDropTarget := none,
      lastDropResult := none } rfl rfl).1

/-- Concrete tree for the C1 counterexample: expanded target 1 whose first
(and only) visible child is the dragged entity 0 itself. -/
def redirectCexTreeItems : ℕ → Option (TreeItemData ℕ) := fun i =>
  if i = 1 then
    some { type := "entity",
           children := [{ type := "entity", entity := 0, dragDropConfig := some plainConfig }],
           dragDropConfig := some plainConfig }
  else if i = 0 then
    some { type := "entity", children := [], dragDropConfig := some plainConfig }
  else
    none

/-- The expanded-items set for the C1 counterexample: entity 1 is expanded. -/
def redirectCexOpenItems : ℕ → Bool := fun i => i == 1

/-- C1 counterexample: dragging entity 0 over the expanded entity 1 (whose
tree item has one child) in the bottom 15% classifies the zone as "after",
yet no redirect happens — the hover state keeps target 1 and position
"after", because the first child is the dragged entity itself. -/
theorem redirect_claim_counterexample :
    calculateDropPosition (9 + 0) { top := 0, height := 10 } = .after ∧
    redirectCexOpenItems 1 = true ∧
    ((redirectCexTreeItems 1).map (fun it => it.children.length)) = some 1 ∧
    (onDragMove (fun i => i) redirectCexTreeItems redirectCexOpenItems none
        (some { entity := some 1, dragDropConfig := some plainConfig,
                rect := { top := 0, height := 10 } })
        (.withClientY 9) 0
        { draggedEntity := some 0, currentDropPosition := none, currentDropTarget := none,
          lastDropResult := none }).currentDropPosition = some .after ∧
    (onDragMove (fun i => i) redirectCexTreeItems redirectCexOpenItems none
        (some { entity := some 1, dragDropConfig := some plainConfig,
                rect := { top := 0, height := 10 } })
        (.withClientY 9) 0
        { draggedEntity := some 0, currentDropPosition := none, currentDropTarget := none,
          lastDropResult := none }).currentDropTarget = some 1 := by
  have hpos : calculateDropPosition (9 + 0) { top := 0, height := 10 } =
      DropPosition.after := by
    unfold calculateDropPosition
    dsimp only
    rw [if_neg (by norm_num), if_pos (by norm_num)]
  have hrun : onDragMove (fun i => i) redirectCexTreeItems redirectCexOpenItems none
      (some { entity := some 1, dragDropConfig := some plainConfig,
              rect := { top := 0, height := 10 } })
      (.withClientY 9) 0
      { draggedEntity := some 0, currentDropPosition := none, currentDropTarget := none,
        lastDropResult := none } =
      { draggedEntity := some 0, currentDropPosition := some .after,
        currentDropTarget := some 1, lastDropResult := none } := by
    unfold onDragMove
    dsimp only [extractClientY]
    rw [if_neg (by decide), hpos]
    simp [redirectCexTreeItems, plainConfig]
  refine ⟨hpos, rfl, rfl, by rw [hrun], by rw [hrun]⟩

/-- C1 amended: in the config-object variant, when the classified zone is
"after", the target's tree item is an entity item with at least one child,
the target is expanded, and the first child is an entity item distinct from
the dragged entity that carries its own dragDropConfig, then the drop is
redirected to zone "before" on the first child, validated with the first
child's canDrop (and the service callback) at the redirected target and
position; and on release over that redirected state, when the dragged
entity's own tree item provides a config with a performDrop and the consumer
hook does not prevent the drop, the committed mutation receives the first
child (not the original target) as its target. -/
theorem redirect_after_expanded {α : Type} [DecidableEq α]
    (getId : α → Nat) (allTreeItems : Nat → Option (TreeItemData α)) (openItems : Nat → Bool)
    (canDropCallback : Option (α → α → DropPosition → Bool))
    (onDropHook : Option (α → α → DropPosition → Bool))
    (over : OverData α) (ev : ActivatorEvent) (dy y : ℚ) (s : ConfigState α)
    (dragged target : α) (cfg : DragDropConfig α)
    (item : TreeItemData α) (firstChild : TreeChild α) (childConfig : DragDropConfig α)
    (hs : s.draggedEntity = some dragged)
    (hov : over.entity = some target) (hcfg : over.dragDropConfig = some cfg)
    (hne : target ≠ dragged)
    (hy : extractClientY ev = some y)
    (hafter : calculateDropPosition (y + dy) over.rect = .after)
    (hitem : allTreeItems (getId target) = some item)
    (htype : item.type = "entity")
    (hopen : openItems (getId target) = true)
    (hhead : item.children.head? = some firstChild)
    (hchildtype : firstChild.type = "entity")
    (hchildne : firstChild.entity ≠ dragged)
    (hchildcfg : firstChild.dragDropConfig = some childConfig) :
    (onDragMove getId allTreeItems openItems canDropCallback (some over) ev dy s =
      if (childConfig.canDrop.map (fun f => f dragged firstChild.entity .before)).getD true &&
          (canDropCallback.map (fun f => f dragged firstChild.entity .before)).getD true then
        { s with currentDropPosition := some .before, currentDropTarget := some firstChild.entity }
      else clearHover s) ∧
    (∀ (dropCfg : DragDropConfig α) (r : Option (DropResult α)),
      lookupDragDropConfig getId allTreeItems dragged = some dropCfg →
      dropCfg.hasPerformDrop = true →
      (onDropHook.map (fun f => f dragged firstChild.entity .before)).getD false = false →
      (onDragEnd getId allTreeItems onDropHook
        { draggedEntity := some dragged, currentDropPosition := some .before,
          currentDropTarget := some firstChild.entity, lastDropResult := r }).performDropCall =
        some ⟨dragged, firstChild.entity, .before⟩) := by
  constructor
  · have hempty : item.children.isEmpty = false := by
      cases hcl : item.children <;> rw [hcl] at hhead <;> simp_all
    unfold onDragMove
    rw [hs]
    dsimp only
    rw [hov, hcfg]
    dsimp only
    rw [if_neg hne, hy]
    dsimp only
    rw [hafter, if_pos rfl, hitem]
    dsimp only
    have hguard : item.type = "entity" ∧ item.children.isEmpty = false ∧
        openItems (getId target) = true := ⟨htype, hempty, hopen⟩
    rw [if_pos hguard, hhead]
    dsimp only
    rw [hchildcfg]
    dsimp only
    have hchild : firstChild.type = "entity" ∧ firstChild.entity ≠ dragged :=
      ⟨hchildtype, hchildne⟩
    rw [if_pos hchild]
  · intro dropCfg r hlook hperf hnoprev
    unfold onDragEnd
    dsimp only
    rw [hlook]
    dsimp only
    rw [hnoprev]
    simp [hperf]

/-- Witness for the C1 amended theorem: a concrete redirected hover update,
dragging 2 over the expanded 1 whose first child is 3. -/
theorem redirect_after_expanded_witness :
    onDragMove (fun i => i)
      (fun i => if i = 1 then
          some { type := "entity",
                 children := [{ type := "entity", entity := 3,
                                dragDropConfig := some plainConfig }],
                 dragDropConfig := some plainConfig }
        else none)
      (fun i => i == 1) none
      (some { entity := some 1, dragDropConfig := some plainConfig,
              rect := { top := 0, height := 10 } })
      (.withClientY 9) 0
      { draggedEntity := some 2, currentDropPosition := none, currentDropTarget := none,
        lastDropResult := none } =
      (if ((plainConfig.canDrop.map (fun f => f 2 3 .before)).getD true &&
          ((none : Option (ℕ → ℕ → DropPosition → Bool)).map
            (fun f => f 2 3 .before)).getD true) then
        { draggedEntity := some 2, currentDropPosition := some DropPosition.before,
          currentDropTarget := some 3, lastDropResult := none }
      else
        clearHover
          { draggedEntity := some 2, currentDropPosition := none, currentDropTarget := none,
            lastDropResult := none }) :=
  (redirect_after_expanded (fun i => i)
    (fun i => if i = 1 then
        some { type := "entity",
               children := [{ type := "entity", entity := 3,
                              dragDropConfig := some plainConfig }],
               dragDropConfig := some plainConfig }
      else none)
    (fun i => i == 1) none none
    { entity := some 1, dragDropConfig := some plainConfig, rect := { top := 0, height := 10 } }
    (.withClientY 9) 0 9
    { draggedEntity := some 2, currentDropPosition := none, currentDropTarget := none,
      lastDropResult := none }
    2 1 plainConfig
    { type := "entity",
      children := [{ type := "entity", entity := 3, dragDropConfig := some plainConfig }],
      dragDropConfig := some plainConfig }
    { type := "entity", entity := 3, dragDropConfig := some plainConfig } plainConfig
    rfl rfl rfl (by decide) rfl
    (by unfold calculateDropPosition
        dsimp only
        rw [if_neg (by norm_num), if_pos (by norm_num)])
    rfl rfl rfl rfl rfl (by decide) rfl).1

/-- Witness for C10: a populated session whose dragged entity has no tree
item at all — through the theorem, no mutation call is reported. -/
theorem onDragEnd_config_from_dragged_item_witness :
    (onDragEnd (fun i => i) (fun _ => none) none
        { draggedEntity := some 0, currentDropPosition := some .inside,
          currentDropTarget := some 1, lastDropResult := none }).performDropCall = none :=
  (onDragEnd_config_from_dragged_item (fun i => i) (fun _ => none) none
    { draggedEntity := some 0, currentDropPosition := some .inside,
      currentDropTarget := some 1, lastDropResult := none }
    0 1 .inside rfl rfl rfl rfl).2.1
